import Mathlib

/-!
Verification of the NL-to-config synthesis pipeline of the
`data_pipeline_agent` repository (file `src/ingestion_agent/core/nlu_parser.py`,
with the data model of `core/config_models.py` and the draft shapes produced by
`core/llm_client.py`).

The Python code extracts fields from natural-language text with ordered
`re.search` calls.  We embed the exact patterns used by the source as values of
a small pattern datatype `Pat`, together with a backtracking matcher `Pat.run`
implementing the semantics of the Python `re` module for the constructs that
appear in those patterns: ordered alternation, greedy and lazy repetition of
single-character classes, optional groups, literals (optionally
case-insensitive), one capture group, `^` and `$`.  `Pat.search` scans start
positions left to right, mirroring `re.search` (leftmost match wins; at a given
start the backtracking order decides).

Machine strings are `String`/`List Char`; dictionaries are association lists;
absent-or-`None` dictionary entries are `Option.none`, and Python truthiness of
a string value is `isFilled`.  The external LLM call (an I/O action) is
represented by passing its result to `parse_request` as an explicit
`LLMResult` argument.
-/

/-- Python truthiness of an optional string: `False` for `None` and `""`. -/
def isFilled (o : Option String) : Bool :=
  match o with
  | none => false
  | some v => v ≠ ""

/-- Python `x or d` for an optional string `x` and default `d`. -/
def pyOr (o : Option String) (d : String) : String :=
  match o with
  | some v => if v ≠ "" then v else d
  | none => d

/-- Python `dict.get k` over an association list. -/
def dictGet (m : List (String × String)) (k : String) : Option String :=
  match m with
  | [] => none
  | (k0, v0) :: rest => if k0 = k then some v0 else dictGet rest k

/-- Python `dict[k] = v`: replace in place or append at the end. -/
def dictSet (m : List (String × String)) (k v : String) : List (String × String) :=
  match m with
  | [] => [(k, v)]
  | (k0, v0) :: rest => if k0 = k then (k0, v) :: rest else (k0, v0) :: dictSet rest k v

/-- Python `dict.pop k`: drop the first binding of `k`. -/
def dictPop (m : List (String × String)) (k : String) : List (String × String) :=
  match m with
  | [] => []
  | (k0, v0) :: rest => if k0 = k then rest else (k0, v0) :: dictPop rest k

/-- Python `needle in haystack` (contiguous sublist of characters). -/
def hasSub (needle : List Char) : List Char → Bool
  | [] => needle.isEmpty
  | c :: rest => needle.isPrefixOf (c :: rest) || hasSub needle rest

/-- Python `s.split(sep, 1)` for a single-character separator, on the first
occurrence: the part before and the part after. -/
def splitFirst (sep : Char) (s : List Char) : List Char × List Char :=
  (s.takeWhile (fun c => !(c == sep)), (s.dropWhile (fun c => !(c == sep))).tail)

/-- Python `str.isdigit` restricted to the ASCII digits that occur here. -/
def pyIsDigit (s : List Char) : Bool :=
  !s.isEmpty && s.all (fun c => '0' ≤ c && c ≤ '9')

/-- Numeric value of an all-digits string (what Python `int` returns on it). -/
def digitsToNat (s : List Char) : Nat :=
  s.foldl (fun n c => 10 * n + (c.toNat - 48)) 0

/-- The whitespace characters matched by the `\s` class of the Python `re`
module that can occur in the requests modelled here (ASCII whitespace plus the
no-break and ideographic spaces). -/
def pySpace (c : Char) : Bool :=
  c = ' ' || c = '\t' || c = '\n' || c = '\r' || c = '\x0b' || c = '\x0c' ||
    c = ' ' || c = '　'

/-- The class `[A-Za-z0-9_]`. -/
def wordChar (c : Char) : Bool :=
  ('A' ≤ c && c ≤ 'Z') || ('a' ≤ c && c ≤ 'z') || ('0' ≤ c && c ≤ '9') || c = '_'

/-- The class `[^\s,;，。]` used by the credential patterns. -/
def credChar (c : Char) : Bool :=
  !(pySpace c || c = ',' || c = ';' || c = '，' || c = '。')

/-- The class `[^\s,，。]` used by the host and database patterns. -/
def hostChar (c : Char) : Bool :=
  !(pySpace c || c = ',' || c = '，' || c = '。')

/-- The class `[^\s,，]` used by the storage-path pattern. -/
def ucPathChar (c : Char) : Bool :=
  !(pySpace c || c = ',' || c = '，')

/-- The class matched by `.` (any character except a newline). -/
def anyChar (c : Char) : Bool :=
  !(c == '\n')

/-- ASCII case-insensitive character comparison (`re.IGNORECASE`). -/
def ciEq (a b : Char) : Bool :=
  a.toLower == b.toLower

/-- Case-insensitive prefix test. -/
def isPrefixCI : List Char → List Char → Bool
  | [], _ => true
  | _ :: _, [] => false
  | a :: as, b :: bs => ciEq a b && isPrefixCI as bs

/-- Rests of `s` after a greedy run of class characters, longest run first:
the backtracking order of a greedy `c*` over a one-character class. -/
def dropsDesc (f : Char → Bool) : List Char → List (List Char)
  | [] => [[]]
  | c :: cs => if f c then dropsDesc f cs ++ [c :: cs] else [c :: cs]

/-- Rests after a greedy `c+` (at least one character), longest run first. -/
def dropsPlus (f : Char → Bool) : List Char → List (List Char)
  | [] => []
  | c :: cs => if f c then dropsDesc f cs else []

/-- Rests after a lazy `c*?`, shortest run first. -/
def dropsAsc (f : Char → Bool) : List Char → List (List Char)
  | [] => [[]]
  | c :: cs => (c :: cs) :: (if f c then dropsAsc f cs else [])

/-- The pattern constructs appearing in the regular expressions of
`nlu_parser.py`.  Repetition only ever applies to one-character classes there,
which keeps the matcher structurally recursive. -/
inductive Pat : Type where
  | lit (l : List Char)
  | litCI (l : List Char)
  | one (f : Char → Bool)
  | star (f : Char → Bool)
  | plus (f : Char → Bool)
  | lazyStar (f : Char → Bool)
  | opt (p : Pat)
  | alt (p q : Pat)
  | seq (p q : Pat)
  | grp (p : Pat)
  | bol
  | eos

/-- Combination of the capture slots of two sequenced sub-matches (there is at
most one capture group per pattern, so at most one side is `some`). -/
def combineCap : Option (List Char) → Option (List Char) → Option (List Char)
  | some c, _ => some c
  | none, c2 => c2

/-- Backtracking matcher.  `Pat.run p atStart s` lists every way `p` can match
a prefix of `s`, in the order the Python `re` module explores them; an outcome
is the content of the capture group (if the group participated) and the rest of
the input.  `atStart` tells whether `s` begins at position 0 of the haystack
(only consulted by `^`, which the source patterns use only in front position).
-/
def Pat.run : Pat → Bool → List Char → List (Option (List Char) × List Char)
  | .lit l, _, s => if l.isPrefixOf s then [(none, s.drop l.length)] else []
  | .litCI l, _, s => if isPrefixCI l s then [(none, s.drop l.length)] else []
  | .one _, _, [] => []
  | .one f, _, c :: cs => if f c then [(none, cs)] else []
  | .star f, _, s => (dropsDesc f s).map (fun r => (none, r))
  | .plus f, _, s => (dropsPlus f s).map (fun r => (none, r))
  | .lazyStar f, _, s => (dropsAsc f s).map (fun r => (none, r))
  | .opt p, a, s => p.run a s ++ [(none, s)]
  | .alt p q, a, s => p.run a s ++ q.run a s
  | .seq p q, a, s =>
      (p.run a s).flatMap
        (fun o => (q.run false o.2).map (fun o2 => (combineCap o.1 o2.1, o2.2)))
  | .grp p, a, s =>
      (p.run a s).map (fun o => (some (s.take (s.length - o.2.length)), o.2))
  | .bol, a, s => if a then [(none, s)] else []
  | .eos, _, s => if s.isEmpty then [(none, s)] else []

/-- Scan of start positions for `re.search`: at each index try the pattern;
the first index with a match wins, and there the first outcome in backtracking
order wins.  Returns the match start index and the group-1 capture. -/
def searchGo (p : Pat) : Nat → List Char → Option (Nat × Option (List Char))
  | i, [] =>
      match p.run (i == 0) [] with
      | o :: _ => some (i, o.1)
      | [] => none
  | i, c :: rest =>
      match p.run (i == 0) (c :: rest) with
      | o :: _ => some (i, o.1)
      | [] => searchGo p (i + 1) rest

/-- `re.search` over a haystack. -/
def Pat.search (p : Pat) (s : List Char) : Option (Nat × Option (List Char)) :=
  searchGo p 0 s

/-- Group-1 capture of the first match, as a string (`match.group(1)`). -/
def searchCap (p : Pat) (text : String) : Option String :=
  match p.search text.data with
  | some (_, some c) => some (String.mk c)
  | _ => none

/-- Start index of the first match (`match.start()`). -/
def searchStart (p : Pat) (text : String) : Option Nat :=
  match p.search text.data with
  | some (i, _) => some i
  | none => none

/-- Ordered alternation of a list of patterns (left to right). -/
def altL : List Pat → Pat
  | [] => .one (fun _ => false)
  | [p] => p
  | p :: rest => .alt p (altL rest)

/-- Sequencing of a list of patterns. -/
def seqL : List Pat → Pat
  | [] => .lit []
  | p :: rest => .seq p (seqL rest)

/-- Character data of a string literal. -/
def lc (s : String) : List Char :=
  s.data

/-! ### The patterns of `nlu_parser.py`, transcribed one for one

Naming: `userPat1` is the first pattern of the `"user"` entry of
`_extract_inline_credentials`, and so on.  Patterns compiled with
`re.IGNORECASE` in the source use `litCI` for their ASCII-letter literals. -/

/-- `\s*` -/
def wsStar : Pat := .star pySpace

/-- The separator alternation `(?:=|:|：|is|为|是)` of the credential,
pre-fill-schema and sink-table-keyword patterns. -/
def sepPat : Pat :=
  altL [.lit (lc "="), .lit (lc ":"), .lit (lc "："), .litCI (lc "is"),
    .lit (lc "为"), .lit (lc "是")]

/-- `(?:用户名|username|user|账号)\s*(?:=|:|：|is|为|是)\s*([^\s,;，。]+)` -/
def userPat1 : Pat :=
  seqL [altL [.lit (lc "用户名"), .litCI (lc "username"), .litCI (lc "user"),
      .lit (lc "账号")],
    wsStar, sepPat, wsStar, .grp (.plus credChar)]

/-- `(?:user|username)\s+([^\s,;，。]+)` -/
def userPat2 : Pat :=
  seqL [altL [.litCI (lc "user"), .litCI (lc "username")],
    .plus pySpace, .grp (.plus credChar)]

/-- `(?:密码|password|pwd|口令)\s*(?:=|:|：|is|为|是)\s*([^\s,;，。]+)` -/
def pwPat1 : Pat :=
  seqL [altL [.lit (lc "密码"), .litCI (lc "password"), .litCI (lc "pwd"),
      .lit (lc "口令")],
    wsStar, sepPat, wsStar, .grp (.plus credChar)]

/-- `(?:password|pwd)\s+([^\s,;，。]+)` -/
def pwPat2 : Pat :=
  seqL [altL [.litCI (lc "password"), .litCI (lc "pwd")],
    .plus pySpace, .grp (.plus credChar)]

/-- `(?:hostname|host|地址|主机)\s*(?:=|:|：|为|是)\s*([^\s,，。]+)` -/
def hostPat1 : Pat :=
  seqL [altL [.litCI (lc "hostname"), .litCI (lc "host"), .lit (lc "地址"),
      .lit (lc "主机")],
    wsStar,
    altL [.lit (lc "="), .lit (lc ":"), .lit (lc "："), .lit (lc "为"),
      .lit (lc "是")],
    wsStar, .grp (.plus hostChar)]

/-- `(?:地址为|主机为)\s*([^\s,，。]+)` -/
def hostPat2 : Pat :=
  seqL [altL [.lit (lc "地址为"), .lit (lc "主机为")], wsStar, .grp (.plus hostChar)]

/-- `(?:database|db|数据库(?:名称)?)\s*(?:=|:|：|为|是)\s*([^\s,，。]+)` -/
def dbPat1 : Pat :=
  seqL [altL [.litCI (lc "database"), .litCI (lc "db"),
      .seq (.lit (lc "数据库")) (.opt (.lit (lc "名称")))],
    wsStar,
    altL [.lit (lc "="), .lit (lc ":"), .lit (lc "："), .lit (lc "为"),
      .lit (lc "是")],
    wsStar, .grp (.plus hostChar)]

/-- `(?:数据库为|数据库名为|数据库名是|数据库名称为|数据库名称是)\s*([^\s,，。]+)` -/
def dbPat2 : Pat :=
  seqL [altL [.lit (lc "数据库为"), .lit (lc "数据库名为"), .lit (lc "数据库名是"),
      .lit (lc "数据库名称为"), .lit (lc "数据库名称是")],
    wsStar, .grp (.plus hostChar)]

/-- A `schema.table` token: `[A-Za-z0-9_]+\.[A-Za-z0-9_]+`. -/
def dottedPair : Pat :=
  seqL [.plus wordChar, .lit (lc "."), .plus wordChar]

/-- Sink-table pattern 1:
`(?:目标表名为|目标表名是|目标表为|目标表是|写入表|写入|抽取到|导入到)\s*([A-Za-z0-9_]+\.[A-Za-z0-9_]+)` -/
def sinkPat1 : Pat :=
  seqL [altL [.lit (lc "目标表名为"), .lit (lc "目标表名是"), .lit (lc "目标表为"),
      .lit (lc "目标表是"), .lit (lc "写入表"), .lit (lc "写入"), .lit (lc "抽取到"),
      .lit (lc "导入到")],
    wsStar, .grp dottedPair]

/-- Sink-table pattern 2: `([A-Za-z0-9_]+\.[A-Za-z0-9_]+)\s*的?\s*表` -/
def sinkPat2 : Pat :=
  seqL [.grp dottedPair, wsStar, .opt (.lit (lc "的")), wsStar, .lit (lc "表")]

/-- Sink-table pattern 3: `表\s+([A-Za-z0-9_]+\.[A-Za-z0-9_]+)` -/
def sinkPat3 : Pat :=
  seqL [.lit (lc "表"), .plus pySpace, .grp dottedPair]

/-- Sink-table pattern 4:
`(?:^|\s)([A-Za-z0-9_]+\.[A-Za-z0-9_]+)(?:\s|$|中|的)` -/
def sinkPat4 : Pat :=
  seqL [.alt .bol (.one pySpace), .grp dottedPair,
    altL [.one pySpace, .eos, .lit (lc "中"), .lit (lc "的")]]

/-- Sink-table fallback: `([A-Za-z0-9_]+)\s*表` -/
def sinkFallbackPat : Pat :=
  seqL [.grp (.plus wordChar), wsStar, .lit (lc "表")]

/-- A table token with an optional schema part:
`[A-Za-z0-9_]+(?:\.[A-Za-z0-9_]+)?`. -/
def optDotted : Pat :=
  .seq (.plus wordChar) (.opt (.seq (.lit (lc ".")) (.plus wordChar)))

/-- Source-table pattern 1: `(?:表名为|表名是|源表为|源表是)\s*([A-Za-z0-9_]+(?:\.[A-Za-z0-9_]+)?)` -/
def srcPat1 : Pat :=
  seqL [altL [.lit (lc "表名为"), .lit (lc "表名是"), .lit (lc "源表为"),
      .lit (lc "源表是")],
    wsStar, .grp optDotted]

/-- Source-table pattern 2: `表\s*([A-Za-z0-9_]+(?:\.[A-Za-z0-9_]+)?)` -/
def srcPat2 : Pat :=
  seqL [.lit (lc "表"), wsStar, .grp optDotted]

/-- Source-table fallback: `([A-Za-z0-9_]+)\s*表` -/
def srcFallbackPat : Pat :=
  seqL [.grp (.plus wordChar), wsStar, .lit (lc "表")]

/-- `(abfss://[^\s,，]+)` -/
def ucPathPat : Pat :=
  .grp (.seq (.lit (lc "abfss://")) (.plus ucPathChar))

/-- `(?:schema|模式)\s*(?:=|:|为)\s*([A-Za-z0-9_]+)` of `_parse_schema_token`. -/
def schemaTokenPat : Pat :=
  seqL [altL [.litCI (lc "schema"), .lit (lc "模式")],
    wsStar, altL [.lit (lc "="), .lit (lc ":"), .lit (lc "为")],
    wsStar, .grp (.plus wordChar)]

/-- `layer\s*(?:=|:|是)\s*([A-Za-z0-9_]+)` of `_parse_layer`. -/
def layerPat : Pat :=
  seqL [.litCI (lc "layer"), wsStar,
    altL [.lit (lc "="), .lit (lc ":"), .lit (lc "是")],
    wsStar, .grp (.plus wordChar)]

/-- Sink-segment keyword of `_get_sink_segment`:
`(写入|抽取到|导入到|sink|databricks|目标|delta\s*table)` -/
def sinkKeyPat : Pat :=
  altL [.lit (lc "写入"), .lit (lc "抽取到"), .lit (lc "导入到"),
    .litCI (lc "sink"), .litCI (lc "databricks"), .lit (lc "目标"),
    seqL [.litCI (lc "delta"), wsStar, .litCI (lc "table")]]

/-- Source-segment keyword of `_get_source_segment`:
`(写入|抽取到|导入到|sink|databricks|目标)` -/
def srcKeyPat : Pat :=
  altL [.lit (lc "写入"), .lit (lc "抽取到"), .lit (lc "导入到"),
    .litCI (lc "sink"), .litCI (lc "databricks"), .lit (lc "目标")]

/-- Pre-fill source-schema pattern (line 183):
`(?:源|source).*?(?:schema|模式|架构)\s*(?:=|:|：|is|为|是)\s*([A-Za-z0-9_]+)` -/
def srcSchemaPat : Pat :=
  seqL [altL [.lit (lc "源"), .litCI (lc "source")],
    .lazyStar anyChar,
    altL [.litCI (lc "schema"), .lit (lc "模式"), .lit (lc "架构")],
    wsStar, sepPat, wsStar, .grp (.plus wordChar)]

/-- Pre-fill sink-schema pattern (line 217):
`(?:schema|模式|架构)\s*(?:=|:|：|is|为|是)\s*([A-Za-z0-9_]+)` -/
def sinkSchemaPat : Pat :=
  seqL [altL [.litCI (lc "schema"), .lit (lc "模式"), .lit (lc "架构")],
    wsStar, sepPat, wsStar, .grp (.plus wordChar)]

/-- Pre-fill sink-table pattern (line 225):
`(?:表名为|表名是|表为|table\s*(?:name\s*)?(?:=|:|：|is|为|是))\s*([A-Za-z0-9_]+)` -/
def sinkNamePat : Pat :=
  seqL [altL [.lit (lc "表名为"), .lit (lc "表名是"), .lit (lc "表为"),
      seqL [.litCI (lc "table"), wsStar, .opt (.seq (.litCI (lc "name")) wsStar),
        sepPat]],
    wsStar, .grp (.plus wordChar)]

/-! ### The extraction functions of `NLUParser` -/

/-- Module-level constants of `nlu_parser.py`. -/
def DEFAULT_UC_BASE_PATH : String :=
  "abfss://uctarhone@tarhonemetastore.dfs.core.chinacloudapi.cn/tarhoneroot1"

def DEFAULT_LAYER : String := "bronze"

def DEFAULT_POSTGRES_PORT : Nat := 5432

def DEFAULT_POSTGRES_DB : String := "postgres"

def DEFAULT_JOB_NAME : String := "ingestion_job"

/-- Result of `_extract_inline_credentials`: a dictionary whose keys can only
be `"user"` and `"password"` (the two entries of the pattern table). -/
structure Creds where
  user : Option String
  password : Option String
deriving Repr, DecidableEq

/-- `NLUParser._extract_inline_credentials`: for each field, the first pattern
with a match wins; no match leaves the key absent. -/
def extract_inline_credentials (text : String) : Creds :=
  if text = "" then ⟨none, none⟩
  else
    { user :=
        match searchCap userPat1 text with
        | some c => some c
        | none => searchCap userPat2 text,
      password :=
        match searchCap pwPat1 text with
        | some c => some c
        | none => searchCap pwPat2 text }

/-- The `for pattern in host_patterns` loop of `_parse_host_db`: first pattern
with a match wins. -/
def host_token (text : String) : Option String :=
  match searchCap hostPat1 text with
  | some c => some c
  | none => searchCap hostPat2 text

/-- The `for pattern in db_patterns` loop of `_parse_host_db`. -/
def db_token (text : String) : Option String :=
  match searchCap dbPat1 text with
  | some c => some c
  | none => searchCap dbPat2 text

/-- `NLUParser._parse_host_db`: host and database tokens from the text, the
port split out of a `host:port` token when its digits are a number, and the
database defaulted to `postgres`.  The port default is the module constant
`DEFAULT_POSTGRES_PORT` whatever the source type is. -/
def parse_host_db (text : String) : Option String × Nat × String :=
  let host0 := host_token text
  let db := pyOr (db_token text) DEFAULT_POSTGRES_DB
  match host0 with
  | none => (none, DEFAULT_POSTGRES_PORT, db)
  | some h =>
      if h.data.contains ':' then
        let parts := splitFirst ':' h.data
        let port :=
          if pyIsDigit parts.2 then digitsToNat parts.2 else DEFAULT_POSTGRES_PORT
        (some (String.mk parts.1), port, db)
      else
        (some h, DEFAULT_POSTGRES_PORT, db)

/-- `NLUParser._get_sink_segment`: the text from the first sink keyword on. -/
def get_sink_segment (text : String) : String :=
  match searchStart sinkKeyPat text with
  | some i => String.mk (text.data.drop i)
  | none => text

/-- `NLUParser._get_source_segment`: the text before the first sink keyword. -/
def get_source_segment (text : String) : String :=
  match searchStart srcKeyPat text with
  | some i => String.mk (text.data.take i)
  | none => text

/-- `NLUParser._parse_schema_token`. -/
def parse_schema_token (text : String) : Option String :=
  searchCap schemaTokenPat text

/-- `NLUParser._parse_uc_path`: an `abfss://` URI with trailing `/` stripped. -/
def parse_uc_path (text : String) : Option String :=
  match searchCap ucPathPat text with
  | some c => some (String.mk (((c.data.reverse).dropWhile (fun ch => ch == '/')).reverse))
  | none => none

/-- `NLUParser._parse_layer`. -/
def parse_layer (text : String) : Option String :=
  match searchCap layerPat text with
  | some c => some (String.mk (c.data.map Char.toLower))
  | none => none

/-- `NLUParser._parse_sink_table`: the four dotted-pair patterns in order over
the sink segment; a match is accepted when it has no hyphen and exactly one
dot (always true of a `dottedPair` capture, but the source checks it and falls
through to the next pattern otherwise); then the single-name fallback with a
schema token or `"default"`. -/
def parse_sink_table (text : String) : Option String :=
  let seg := get_sink_segment text
  let fromPats :=
    [sinkPat1, sinkPat2, sinkPat3, sinkPat4].foldl
      (fun acc p =>
        match acc with
        | some r => some r
        | none =>
            match searchCap p seg with
            | some c =>
                if !(c.data.contains '-') && (c.data.filter (fun ch => ch == '.')).length = 1
                then some c else none
            | none => none)
      none
  match fromPats with
  | some c => some c
  | none =>
      match searchCap sinkFallbackPat seg with
      | some tbl =>
          some ((pyOr (parse_schema_token seg) "default") ++ "." ++ tbl)
      | none => none

/-- `NLUParser._parse_source_table`: the two keyword patterns in order over the
source segment (a token equal to `databricks` or `delta` is skipped and the
next pattern is tried), then the `<name>表` fallback; a bare token is
schema-qualified from an explicit schema token when one is present. -/
def parse_source_table (text : String) : Option String :=
  let seg := get_source_segment text
  let fromPats :=
    [srcPat1, srcPat2].foldl
      (fun acc p =>
        match acc with
        | some r => some r
        | none =>
            match searchCap p seg with
            | some token =>
                if !(String.mk (token.data.map Char.toLower) = "databricks" ||
                     String.mk (token.data.map Char.toLower) = "delta") then
                  if !(token.data.contains '.') then
                    match parse_schema_token seg with
                    | some schema => some (schema ++ "." ++ token)
                    | none => some token
                  else some token
                else none
            | none => none)
      none
  match fromPats with
  | some r => some r
  | none =>
      match searchCap srcFallbackPat seg with
      | some token =>
          if !(String.mk (token.data.map Char.toLower) = "databricks" ||
               String.mk (token.data.map Char.toLower) = "delta") then
            match parse_schema_token seg with
            | some schema =>
                if !(token.data.contains '.') then some (schema ++ "." ++ token)
                else some token
            | none => some token
          else none
      | none => none

/-! ### Data model (`config_models.py`) -/

inductive SourceType : Type where
  | postgres | mysql | sqlserver | kafka | event_hubs
deriving Repr, DecidableEq

inductive SinkType : Type where
  | delta | jdbc | table
deriving Repr, DecidableEq

inductive Frequency : Type where
  | once | hourly | daily | streaming
deriving Repr, DecidableEq

structure AggregateConfig where
  group_by : List String
  window : Option String
  metrics : List (String × String)
deriving Repr, DecidableEq

structure TransformationConfig where
  select : List String
  rename : List (String × String)
  convert : List (String × String)
  aggregate : Option AggregateConfig
deriving Repr, DecidableEq

structure SourceConfig where
  type : SourceType
  jdbc_url : Option String
  table : Option String
  topic : Option String
  increment_field : Option String
  frequency : Frequency
  options : List (String × String)
deriving Repr, DecidableEq

structure SinkConfig where
  type : SinkType
  path : Option String
  catalog : Option String
  database : Option String
  table : Option String
  mode : String
  layer : Option String
  options : List (String × String)
deriving Repr, DecidableEq

structure MonitoringConfig where
  enable_lineage : Bool
  enable_metrics : Bool
  enable_audit : Bool
deriving Repr, DecidableEq

structure IngestionJobConfig where
  job_name : String
  description : Option String
  source : SourceConfig
  transformations : TransformationConfig
  sink : SinkConfig
  tags : List (String × String)
  monitoring : MonitoringConfig
deriving Repr, DecidableEq

/-! ### Draft shapes

A draft is the untyped dictionary the pipeline mutates before Pydantic
construction.  Dictionary values are strings; an absent key (or one holding
`None`) is `Option.none`.  The transformation values the LLM may emit in the
shapes `_normalize_transformations` handles are given their own small types. -/

inductive SelVal : Type where
  | vlist (xs : List String)
  | vcols (cols : Option (List String))
deriving Repr, DecidableEq

inductive MetVal : Type where
  | mdict (m : List (String × String))
  | mlist
deriving Repr, DecidableEq

inductive AggVal : Type where
  | vdict (group_by : List String) (window : Option String) (metrics : Option MetVal)
  | vother
deriving Repr, DecidableEq

structure TransDraft where
  select : Option SelVal
  rename : List (String × String)
  convert : List (String × String)
  aggregate : Option AggVal
deriving Repr, DecidableEq

structure SourceDraft where
  type : Option String
  jdbc_url : Option String
  table : Option String
  topic : Option String
  increment_field : Option String
  frequency : Option String
  options : Option (List (String × String))
deriving Repr, DecidableEq

structure SinkDraft where
  type : Option String
  path : Option String
  catalog : Option String
  database : Option String
  table : Option String
  mode : Option String
  layer : Option String
  options : Option (List (String × String))
deriving Repr, DecidableEq

/-- The draft after the section checks of `parse_request`: the working state
of `_prefill_from_text`, `_fill_jdbc_and_sink_defaults`,
`_validate_required_fields` and `_normalize_transformations`. -/
structure CoreDraft where
  job_name : Option String
  description : Option String
  source : SourceDraft
  sink : SinkDraft
  transformations : TransDraft
deriving Repr, DecidableEq

def emptySourceDraft : SourceDraft := ⟨none, none, none, none, none, none, none⟩

def emptySinkDraft : SinkDraft := ⟨none, none, none, none, none, none, none, none⟩

def emptyTransDraft : TransDraft := ⟨none, [], [], none⟩

/-- The empty draft mapping (an LLM answer `{}`). -/
def emptyCoreDraft : CoreDraft :=
  ⟨none, none, emptySourceDraft, emptySinkDraft, emptyTransDraft⟩

/-- Python `dict.setdefault k d` on an option-valued slot: only an absent key
receives the default. -/
def setDefault (o : Option String) (d : String) : Option String :=
  match o with
  | none => some d
  | some v => some v

/-! ### The pipeline stages of `NLUParser` -/

/-- `NLUParser._prefill_from_text`, stage 3 of the synthesis pipeline: sink
defaults by `setdefault`, source table from the text (the text wins over the
draft), dialect schema-qualification of a bare source table, source type from
`postgres`/`pgsql` keywords, sink `schema.table` split, sink schema/table from
secondary patterns only into empty slots, sink path, and the job name. -/
def prefill_from_text (d : CoreDraft) (text : String) : CoreDraft :=
  let sink := d.sink
  let sink := { sink with type := setDefault sink.type "delta" }
  let sink := { sink with layer := setDefault sink.layer (pyOr sink.layer DEFAULT_LAYER) }
  let sink := { sink with mode := setDefault sink.mode (pyOr sink.mode "append") }
  let source := d.source
  let source :=
    match parse_source_table text with
    | some tbl => { source with table := some tbl }
    | none => source
  let source :=
    if isFilled source.table && !((source.table.getD "").data.contains '.') then
      match searchCap srcSchemaPat (get_source_segment text) with
      | some schema => { source with table := some (schema ++ "." ++ source.table.getD "") }
      | none =>
          if source.type = some "postgres" then
            { source with table := some ("public." ++ source.table.getD "") }
          else if source.type = some "mysql" then
            source
          else if source.type = some "sqlserver" then
            { source with table := some ("dbo." ++ source.table.getD "") }
          else source
    else source
  let source :=
    if !(isFilled source.type) then
      if hasSub (lc "postgres") (text.data.map Char.toLower) ||
         hasSub (lc "pgsql") (text.data.map Char.toLower) then
        { source with type := some "postgres" }
      else source
    else source
  let source :=
    if !(isFilled source.frequency) then { source with frequency := some "daily" }
    else source
  let sink :=
    match parse_sink_table text with
    | some st =>
        if st.data.contains '.' then
          let parts := splitFirst '.' st.data
          { sink with database := some (String.mk parts.1), table := some (String.mk parts.2) }
        else { sink with table := some st }
    | none => sink
  let sink :=
    if !(isFilled sink.database) then
      match searchCap sinkSchemaPat text with
      | some schema => { sink with database := some schema }
      | none => sink
    else sink
  let sink :=
    if !(isFilled sink.table) then
      match searchCap sinkNamePat (get_sink_segment text) with
      | some tbl => { sink with table := some tbl }
      | none => sink
    else sink
  let sink :=
    if !(isFilled sink.path) then
      if isFilled sink.table then
        let base := pyOr (parse_uc_path text) DEFAULT_UC_BASE_PATH
        let schema := sink.database.getD "default"
        { sink with path := some (base ++ "/" ++ sink.layer.getD DEFAULT_LAYER ++ "/" ++
            schema ++ "/" ++ sink.table.getD "") }
      else sink
    else sink
  let job_name :=
    if !(isFilled d.job_name) then
      if isFilled sink.table then
        some ("ingest_" ++
          String.mk ((sink.table.getD "").data.map (fun c => if c == '.' then '_' else c)))
      else if isFilled source.table then
        some ("ingest_" ++ source.table.getD "")
      else some DEFAULT_JOB_NAME
    else d.job_name
  { d with job_name := job_name, source := source, sink := sink }

/-- `NLUParser._fill_jdbc_and_sink_defaults`, stage 4: JDBC URL for a postgres
source from the text host (the text wins over the draft), the sink
`schema.table` split when no schema is set, the sink path, and removal of a
conflicting `path` entry from the sink options. -/
def fill_jdbc_and_sink_defaults (d : CoreDraft) (text : String) : CoreDraft :=
  let source :=
    if d.source.type = some "postgres" then
      let hpd := parse_host_db text
      match hpd.1 with
      | some h =>
          if h ≠ "" then
            { d.source with jdbc_url := some ("jdbc:postgresql://" ++ h ++ ":" ++
                toString hpd.2.1 ++ "/" ++ pyOr (some hpd.2.2) DEFAULT_POSTGRES_DB) }
          else d.source
      | none => d.source
    else d.source
  let sink := d.sink
  let sink :=
    if isFilled sink.table && (sink.table.getD "").data.contains '.' &&
       !(isFilled sink.database) then
      let parts := splitFirst '.' (sink.table.getD "").data
      { sink with database := some (String.mk parts.1), table := some (String.mk parts.2) }
    else sink
  let sink :=
    if !(isFilled sink.path) && isFilled sink.table then
      let base := pyOr (parse_uc_path text) DEFAULT_UC_BASE_PATH
      { sink with path := some (base ++ "/" ++ sink.layer.getD DEFAULT_LAYER ++ "/" ++
          sink.database.getD "default" ++ "/" ++ sink.table.getD "") }
    else sink
  let sink :=
    match sink.options with
    | some opts => if !opts.isEmpty then { sink with options := some (dictPop opts "path") } else sink
    | none => sink
  { d with source := source, sink := sink }

/-- The bilingual missing-field labels of `_validate_required_fields`. -/
def lblSourceType : String := "源数据库类型 (postgres/mysql/sqlserver)"

def lblHost : String := "源数据库主机地址 (hostname)"

def lblSourceTable : String := "源表名称 (必须明确指定，例如: 表名为vwtable1 或 表=schema.table)"

def lblUser : String := "数据库用户名 (username)"

def lblPassword : String := "数据库密码 (password)"

def lblSinkTable : String := "目标表名称 (schema.table)"

def lblSinkSchema : String := "目标schema名称"

/-- The missing-field list computed by `_validate_required_fields`, in the
order the source appends the labels. -/
def missing_fields (d : CoreDraft) (text : String) : List String :=
  let creds := extract_inline_credentials text
  (if !(isFilled d.source.type) then [lblSourceType] else []) ++
  (if !(isFilled d.source.jdbc_url) && !(isFilled (parse_host_db text).1) then [lblHost] else []) ++
  (if !(isFilled d.source.table) then [lblSourceTable] else []) ++
  (if !(isFilled creds.user) && !(isFilled (dictGet (d.source.options.getD []) "user")) then
    [lblUser] else []) ++
  (if !(isFilled creds.password) && !(isFilled (dictGet (d.source.options.getD []) "password")) then
    [lblPassword] else []) ++
  (if !(isFilled d.sink.database) && !(isFilled d.sink.table) then [lblSinkTable]
   else if isFilled d.sink.table && !((d.sink.table.getD "").data.contains '.') &&
           !(isFilled d.sink.database) then [lblSinkSchema]
   else [])

/-- The error message `_validate_required_fields` raises. -/
def missingFieldsMsg (missing : List String) : String :=
  "❌ 缺少必要信息，请提供：\n" ++
    String.intercalate "\n" (missing.map (fun f => "  • " ++ f)) ++
    "\n\n💡 示例：从 postgres 地址为xxx 数据库名称为xxx 表名为vwtable1 用户名：xxx 密码：xxx 抽取数据，写入表 test.table1"

/-- `NLUParser._validate_required_fields`, stage 5: raises exactly when the
missing-field list is non-empty. -/
def validate_required_fields (d : CoreDraft) (text : String) : Except String Unit :=
  let missing := missing_fields d text
  if missing.isEmpty then Except.ok () else Except.error (missingFieldsMsg missing)

/-- `NLUParser._normalize_transformations`: coerce a `columns` object into a
plain select list, default an absent select to `[]`, and force aggregate
metrics into mapping shape. -/
def normalize_transformations (d : CoreDraft) : CoreDraft :=
  let tf := d.transformations
  let tf :=
    match tf.select with
    | some (SelVal.vcols cols) => { tf with select := some (SelVal.vlist (cols.getD [])) }
    | none => { tf with select := some (SelVal.vlist []) }
    | some (SelVal.vlist _) => tf
  let tf :=
    match tf.aggregate with
    | some (AggVal.vdict gb w (some MetVal.mlist)) =>
        { tf with aggregate := some (AggVal.vdict gb w (some (MetVal.mdict []))) }
    | some (AggVal.vdict _ _ _) => tf
    | none => tf
    | some AggVal.vother => { tf with aggregate := none }
  { d with transformations := tf }

/-! ### Pydantic construction (`IngestionJobConfig.parse_obj`) -/

def parseSourceType (o : Option String) : Except String SourceType :=
  match o with
  | some "postgres" => Except.ok SourceType.postgres
  | some "mysql" => Except.ok SourceType.mysql
  | some "sqlserver" => Except.ok SourceType.sqlserver
  | some "kafka" => Except.ok SourceType.kafka
  | some "event_hubs" => Except.ok SourceType.event_hubs
  | _ => Except.error "source.type: value is not a valid SourceType"

def parseSinkType (o : Option String) : Except String SinkType :=
  match o with
  | some "delta" => Except.ok SinkType.delta
  | some "jdbc" => Except.ok SinkType.jdbc
  | some "table" => Except.ok SinkType.table
  | _ => Except.error "sink.type: value is not a valid SinkType"

def parseFrequency (o : Option String) : Except String Frequency :=
  match o with
  | none => Except.ok Frequency.daily
  | some "once" => Except.ok Frequency.once
  | some "hourly" => Except.ok Frequency.hourly
  | some "daily" => Except.ok Frequency.daily
  | some "streaming" => Except.ok Frequency.streaming
  | some _ => Except.error "source.frequency: value is not a valid Frequency"

/-- `IngestionJobConfig.parse_obj` over a draft: field parsing (enum values,
defaults) followed by the `root_validator` checks of `SourceConfig` and
`SinkConfig` and the metrics validator of `AggregateConfig`. -/
def parse_obj (d : CoreDraft) : Except String IngestionJobConfig := do
  let job_name ←
    match d.job_name with
    | some j => Except.ok j
    | none => Except.error "job_name: field required"
  let stype ← parseSourceType d.source.type
  let freq ← parseFrequency d.source.frequency
  if stype = SourceType.postgres ∨ stype = SourceType.mysql ∨ stype = SourceType.sqlserver then
    if !(isFilled d.source.jdbc_url) then
      throw "jdbc_url is required for relational sources"
    else if !(isFilled d.source.table) then
      throw "table is required for relational sources"
    else pure ()
  else pure ()
  if stype = SourceType.kafka ∨ stype = SourceType.event_hubs then
    if !(isFilled d.source.topic) then
      throw "topic is required for streaming sources"
    else if freq ≠ Frequency.streaming then
      throw "streaming sources must use frequency=streaming"
    else pure ()
  else pure ()
  let select ←
    match d.transformations.select with
    | none => Except.ok []
    | some (SelVal.vlist xs) => Except.ok xs
    | some (SelVal.vcols _) => Except.error "transformations.select: value is not a valid list"
  let aggregate ←
    match d.transformations.aggregate with
    | none => Except.ok none
    | some (AggVal.vdict gb w m) =>
        match m with
        | none => Except.ok (some (AggregateConfig.mk gb w []))
        | some (MetVal.mdict mm) =>
            if !mm.isEmpty && mm.all (fun p => p.2 == "") then
              Except.error "At least one aggregate metric function is required"
            else Except.ok (some (AggregateConfig.mk gb w mm))
        | some MetVal.mlist => Except.error "aggregate.metrics: value is not a valid dict"
    | some AggVal.vother => Except.error "transformations.aggregate: value is not a valid dict"
  let sktype ← parseSinkType d.sink.type
  if sktype = SinkType.delta ∧ !(isFilled d.sink.path) ∧ !(isFilled d.sink.table) then
    throw "delta sink requires path or table"
  else pure ()
  if sktype = SinkType.jdbc ∧ !(isFilled d.sink.table) then
    throw "jdbc sink requires table name"
  else pure ()
  pure
    { job_name := job_name,
      description := d.description,
      source :=
        { type := stype,
          jdbc_url := d.source.jdbc_url,
          table := d.source.table,
          topic := d.source.topic,
          increment_field := d.source.increment_field,
          frequency := freq,
          options := d.source.options.getD [] },
      transformations :=
        { select := select,
          rename := d.transformations.rename,
          convert := d.transformations.convert,
          aggregate := aggregate },
      sink :=
        { type := sktype,
          path := d.sink.path,
          catalog := d.sink.catalog,
          database := d.sink.database,
          table := d.sink.table,
          mode := d.sink.mode.getD "append",
          layer := d.sink.layer,
          options := d.sink.options.getD [] },
      tags := [],
      monitoring := MonitoringConfig.mk true true true }

/-! ### Heuristic fallback and augmentation -/

/-- `NLUParser._build_from_text`: the pure-text heuristic rebuild.  Needs a
truthy host and a truthy source table, otherwise no result; the sink table,
when recovered, is split at the first dot (schema `"default"` otherwise) for
the storage path. -/
def build_from_text (text : String) : Option CoreDraft :=
  let hpd := parse_host_db text
  let src_table := parse_source_table text
  let sink_table := parse_sink_table text
  let base := pyOr (parse_uc_path text) DEFAULT_UC_BASE_PATH
  let layer := pyOr (parse_layer text) DEFAULT_LAYER
  let creds := extract_inline_credentials text
  if !(isFilled hpd.1) || !(isFilled src_table) then none
  else
    let sink_path :=
      if isFilled sink_table then
        let st := sink_table.getD ""
        let pr :=
          if st.data.contains '.' then
            let p := splitFirst '.' st.data
            (String.mk p.1, String.mk p.2)
          else ("default", st)
        some (base ++ "/" ++ layer ++ "/" ++ pr.1 ++ "/" ++ pr.2)
      else none
    let opts :=
      (match creds.user with | some u => [("user", u)] | none => []) ++
      (match creds.password with | some p => [("password", p)] | none => [])
    some
      { job_name := some ("ingest_" ++
          String.mk ((pyOr sink_table (src_table.getD "")).data.map
            (fun c => if c == '.' then '_' else c))),
        description := none,
        source :=
          { type := some "postgres",
            jdbc_url := some ("jdbc:postgresql://" ++ hpd.1.getD "" ++ ":" ++
              toString hpd.2.1 ++ "/" ++ pyOr (some hpd.2.2) DEFAULT_POSTGRES_DB),
            table := src_table,
            topic := none,
            increment_field := none,
            frequency := some "daily",
            options := some opts },
        sink :=
          { type := some "delta",
            path := sink_path,
            catalog := none,
            database := none,
            table := some (pyOr sink_table ("default." ++ src_table.getD "")),
            mode := some "append",
            layer := some layer,
            options := none },
        transformations := emptyTransDraft }

/-- The process settings consulted by the augmentation stage (the only field
of `Settings` the synthesis core reads). -/
structure Settings where
  default_unity_catalog : Option String
deriving Repr, DecidableEq

/-- `NLUParser._augment_from_text`, stage 8: fills, only when still absent,
the postgres JDBC URL (terminal error when no host is derivable), the sink
schema/table from the text, the default Unity catalog, and the sink path and
layer.  Returns the updated configuration, or `none` when nothing changed.
(The final `if not config.sink.type` branch of the source can never fire on a
typed configuration, whose `type` is a truthy enum member.) -/
def augment_from_text (st : Settings) (cfg : IngestionJobConfig) (text : String) :
    Except String (Option IngestionJobConfig) := do
  let (cfg, updated) ←
    if cfg.source.type = SourceType.postgres ∧ !(isFilled cfg.source.jdbc_url) then
      let hpd := parse_host_db text
      if isFilled hpd.1 then
        Except.ok
          ({ cfg with source := { cfg.source with jdbc_url := some ("jdbc:postgresql://" ++
              hpd.1.getD "" ++ ":" ++ toString hpd.2.1 ++ "/" ++ hpd.2.2) } }, true)
      else
        Except.error ("LLM could not produce a valid ingestion plan: missing JDBC connection info (host/db). " ++
          "Provide source host/database or use YAML/JSON config mode.")
    else Except.ok (cfg, false)
  let (cfg, updated) :=
    if !(isFilled cfg.sink.table) then
      match parse_sink_table text with
      | some st =>
          if st.data.contains '.' then
            let parts := splitFirst '.' st.data
            let sink2 := { cfg.sink with database := some (String.mk parts.1) }
            ({ cfg with sink := { sink2 with table := some (String.mk parts.2) } }, true)
          else ({ cfg with sink := { cfg.sink with table := some st } }, true)
      | none => (cfg, updated)
    else (cfg, updated)
  let (cfg, updated) :=
    if !(isFilled cfg.sink.catalog) && isFilled st.default_unity_catalog then
      ({ cfg with sink := { cfg.sink with catalog := st.default_unity_catalog } }, true)
    else (cfg, updated)
  let (cfg, updated) :=
    if !(isFilled cfg.sink.path) then
      let base := pyOr (parse_uc_path text) DEFAULT_UC_BASE_PATH
      let schema := pyOr cfg.sink.database "default"
      let tbl := pyOr cfg.sink.table "unknown"
      let layer := pyOr cfg.sink.layer DEFAULT_LAYER
      let sink2 := { cfg.sink with path := some (base ++ "/" ++ layer ++ "/" ++ schema ++ "/" ++ tbl) }
      ({ cfg with sink := { sink2 with layer := some (pyOr cfg.sink.layer DEFAULT_LAYER) } }, true)
    else (cfg, updated)
  pure (if updated then some cfg else none)

/-- The caller side of the augmentation stage in `parse_request`
(`augmented = ...; if augmented: config = augmented`). -/
def apply_augment (st : Settings) (cfg : IngestionJobConfig) (text : String) :
    Except String IngestionJobConfig :=
  match augment_from_text st cfg text with
  | Except.error e => Except.error e
  | Except.ok none => Except.ok cfg
  | Except.ok (some c) => Except.ok c

/-! ### The orchestrator (`NLUParser.parse_request`) -/

/-- A section of the raw LLM draft: absent, a dictionary, or a non-dictionary
value. -/
inductive Sect (α : Type) : Type where
  | missing
  | dict (d : α)
  | invalid
deriving Repr, DecidableEq

def Sect.isInvalid {α : Type} : Sect α → Bool
  | .invalid => true
  | _ => false

def Sect.getOr {α : Type} (s : Sect α) (e : α) : α :=
  match s with
  | .dict d => d
  | _ => e

/-- The raw mapping decoded from the LLM answer. -/
structure Draft where
  job_name : Option String
  description : Option String
  source : Sect SourceDraft
  sink : Sect SinkDraft
  transformations : Sect TransDraft
  validation_error : Bool
  missing : List String
deriving Repr, DecidableEq

/-- Result of `LLMClient.nl_to_config`: a JSON object (a draft mapping),
non-JSON content wrapped as a mapping with the `_raw` marker, or JSON that is
not an object. -/
inductive LLMResult : Type where
  | draft (d : Draft)
  | rawWrapped (s : String)
  | nonDict
deriving Repr

/-- `JobRequest` of `config_models.py`. -/
structure JobRequest where
  natural_language : Option String
  config : Option IngestionJobConfig
  render_only : Bool
deriving Repr

def msgLLMInvalid : String :=
  "LLM could not produce a valid ingestion plan from the prompt. " ++
    "Please provide a clearer ETL description or switch to YAML/JSON config mode."

def msgFallbackFail : String :=
  "LLM could not produce a valid ingestion plan from the prompt. " ++
    "Please describe the data source, fields, transformations, and sink explicitly, or paste a YAML/JSON config."

def msgValidationErr (missing : List String) : String :=
  "❌ 缺少必要信息，请提供：\n" ++
    String.intercalate "\n" (missing.map (fun f => "  • " ++ f)) ++
    "\n\n请重新输入包含以上信息的完整描述。"

/-- `NLUParser.parse_request`.  The external LLM call is passed in as `llm`
(the decoded result of `nl_to_config` on the request text).  A provided
structured configuration wins; a missing text is an error; an unusable LLM
answer (non-object, or the `_raw` wrapper) is a terminal error; a
`validation_error` marker is a terminal error; then the pipeline stages run:
pre-fill, protocol defaults, validation, normalization, typed construction
(with the heuristic rebuild on construction failure), credential injection,
augmentation. -/
def parse_request (st : Settings) (req : JobRequest) (llm : LLMResult) :
    Except String IngestionJobConfig :=
  match req.config with
  | some c => Except.ok c
  | none =>
    if !(isFilled req.natural_language) then
      Except.error "Either natural_language or config must be provided"
    else
      match llm with
      | LLMResult.nonDict => Except.error msgLLMInvalid
      | LLMResult.rawWrapped _ => Except.error msgLLMInvalid
      | LLMResult.draft d0 =>
        let job_name := if !(isFilled d0.job_name) then some DEFAULT_JOB_NAME else d0.job_name
        if d0.validation_error then Except.error (msgValidationErr d0.missing)
        else if d0.source.isInvalid then
          Except.error "LLM could not produce a valid ingestion plan: source section is invalid."
        else if d0.sink.isInvalid then
          Except.error "LLM could not produce a valid ingestion plan: sink section is invalid."
        else
          let text := req.natural_language.getD ""
          let d1 : CoreDraft :=
            { job_name := job_name,
              description := d0.description,
              source := d0.source.getOr emptySourceDraft,
              sink := d0.sink.getOr emptySinkDraft,
              transformations := d0.transformations.getOr emptyTransDraft }
          let d2 := fill_jdbc_and_sink_defaults (prefill_from_text d1 text) text
          match validate_required_fields d2 text with
          | Except.error e => Except.error e
          | Except.ok _ =>
            let d3 := normalize_transformations d2
            let cfgE :=
              match parse_obj d3 with
              | Except.ok c => Except.ok c
              | Except.error _ =>
                  match build_from_text text with
                  | some fb => parse_obj fb
                  | none => Except.error msgFallbackFail
            match cfgE with
            | Except.error e => Except.error e
            | Except.ok cfg =>
              let creds := extract_inline_credentials text
              let cfg :=
                if creds.user ≠ none || creds.password ≠ none then
                  let opts := cfg.source.options
                  let opts :=
                    match creds.user with
                    | some u => dictSet opts "user" u
                    | none => opts
                  let opts :=
                    match creds.password with
                    | some p => dictSet opts "password" p
                    | none => opts
                  { cfg with source := { cfg.source with options := opts } }
                else cfg
              apply_augment st cfg text

/-! ### Concrete scenario inputs used by the claims -/

/-- The end-to-end scenario text of the specification (claim C1). -/
def c1Text : String :=
  "从pgsql抽取数据，数据库为sales，表名为vwtable1，用户名：alice，密码：secret，地址为db.example.com。抽取到test.out1的表中"

/-- Settings with the default Unity catalog of `settings.py`. -/
def testSettings : Settings := ⟨some "uc_tarhone"⟩

/-- An LLM answer that is the empty JSON object (no LLM-supplied fields). -/
def llmEmptyDraft : Draft :=
  ⟨none, none, Sect.missing, Sect.missing, Sect.missing, false, []⟩

/-- The request carrying the C1 scenario text. -/
def c1Req : JobRequest := ⟨some c1Text, none, false⟩

/-- The C1 text with the password clause removed (claim C4, scenario (b)). -/
def c4Text : String :=
  "从pgsql抽取数据，数据库为sales，表名为vwtable1，用户名：alice，地址为db.example.com。抽取到test.out1的表中"

/-- The pipeline state at validation time for `c4Text` and an empty LLM draft:
the placeholder job name is set by `parse_request`, then pre-fill and protocol
defaulting run. -/
def c4Draft : CoreDraft :=
  fill_jdbc_and_sink_defaults
    (prefill_from_text { emptyCoreDraft with job_name := some DEFAULT_JOB_NAME } c4Text)
    c4Text

/-- A draft whose sink table is set and bare (claim C4, part (a) witness). -/
def c4WitnessDraft : CoreDraft :=
  { emptyCoreDraft with sink := { emptySinkDraft with table := some "t0" } }

/-- A text from which the heuristic builder can recover a configuration
(host and source table both resolvable): used against claim C2. -/
def c2Text : String := "地址为h1 表名为t1 用户名：u 密码：p"

/-- A draft holding a non-empty source table and JDBC URL (claim C3). -/
def c3Draft : CoreDraft :=
  { emptyCoreDraft with
    source := { emptySourceDraft with type := some "postgres", table := some "t1", jdbc_url := some "jdbc:old" } }

/-- A text that yields both a source table and a host (claim C3). -/
def c3Text : String := "表名为t2，地址为h1"

/-- A draft exercising every preserved field of the amended claim C3: dotted
source table, a JDBC URL, a bare sink table and a sink type. -/
def c3WitnessDraft : CoreDraft :=
  { emptyCoreDraft with
    source := { emptySourceDraft with table := some "s.t1", jdbc_url := some "jdbc:x" },
    sink := { emptySinkDraft with type := some "delta", table := some "t0" } }

/-- A draft with a bare postgres source table named `orders` (claim C5). -/
def c5Draft : CoreDraft :=
  { emptyCoreDraft with source :=
      { emptySourceDraft with type := some "postgres", table := some "orders" } }

/-- A text containing a source-table mention but no schema (claim C5). -/
def c5Text : String := "表名为b"

/-- The segmentation text of claim C7. -/
def c7Text : String := "source table orders, write to test.pgsqltest1"

/-- A text naming a mysql source with a host and no embedded port (claim C8). -/
def c8Text : String := "从mysql抽取数据，地址为db1，表名为t1"

/-- A text with an embedded `host:port` token (claim C8 witness). -/
def c8ColonText : String := "地址为db.example.com:5433 数据库为d1"

/-- An already-complete configuration: JDBC URL, sink table, path, catalog and
layer all populated (claim C9). -/
def c9Config : IngestionJobConfig :=
  { job_name := "j1",
    description := none,
    source :=
      { type := SourceType.postgres,
        jdbc_url := some "jdbc:postgresql://h:5432/db",
        table := some "public.t",
        topic := none,
        increment_field := none,
        frequency := Frequency.daily,
        options := [("user", "u"), ("password", "p")] },
    transformations := { select := [], rename := [], convert := [], aggregate := none },
    sink :=
      { type := SinkType.delta,
        path := some "abfss://x/y",
        catalog := some "uc_tarhone",
        database := some "db",
        table := some "t",
        mode := "append",
        layer := some "bronze",
        options := [] },
    tags := [],
    monitoring := MonitoringConfig.mk true true true }

/-- Modelled from the spec (for claim C8 only): the per-source-type
default-port table the specification describes — postgres 5432, mysql 3306,
sqlserver 1433.  `nlu_parser.py` has no such table; `_parse_host_db` always
falls back to `DEFAULT_POSTGRES_PORT`.  This definition exists only to state
the comparison between the claim and the code. -/
def spec_default_port : SourceType → Option Nat
  | SourceType.postgres => some 5432
  | SourceType.mysql => some 3306
  | SourceType.sqlserver => some 1433
  | _ => none

/-! ### Capture analysis of the matcher (used for claim C10) -/

/-- Whether a pattern contains the capture group. -/
def hasGrp : Pat → Bool
  | .opt p => hasGrp p
  | .alt p q => hasGrp p || hasGrp q
  | .seq p q => hasGrp p || hasGrp q
  | .grp _ => true
  | _ => false

/-- Every capture any run of `p` can produce satisfies `P`. -/
def RunCapPred (P : List Char → Prop) (p : Pat) : Prop :=
  ∀ (a : Bool) (s : List Char) (o : Option (List Char) × List Char),
    o ∈ Pat.run p a s → ∀ c, o.1 = some c → P c

/-- The property claim C10 asserts of captured credential values. -/
def credGood (c : List Char) : Prop :=
  c ≠ [] ∧ c.all credChar = true

/-! ## Theorems -/

/-- A pattern without the capture group never produces a capture. -/
theorem run_noGrp_cap (p : Pat) (hg : hasGrp p = false) :
    ∀ (a : Bool) (s : List Char) (o : Option (List Char) × List Char),
      o ∈ Pat.run p a s → o.1 = none := by
  induction p with
  | lit l =>
      intro a s o ho
      unfold Pat.run at ho
      split at ho
      · simp only [List.mem_singleton] at ho; subst ho; rfl
      · simp at ho
  | litCI l =>
      intro a s o ho
      unfold Pat.run at ho
      split at ho
      · simp only [List.mem_singleton] at ho; subst ho; rfl
      · simp at ho
  | one f =>
      intro a s o ho
      cases s with
      | nil => simp [Pat.run] at ho
      | cons c cs =>
          unfold Pat.run at ho
          split at ho
          · simp only [List.mem_singleton] at ho; subst ho; rfl
          · simp at ho
  | star f =>
      intro a s o ho
      simp only [Pat.run, List.mem_map] at ho
      obtain ⟨r, _, rfl⟩ := ho; rfl
  | plus f =>
      intro a s o ho
      simp only [Pat.run, List.mem_map] at ho
      obtain ⟨r, _, rfl⟩ := ho; rfl
  | lazyStar f =>
      intro a s o ho
      simp only [Pat.run, List.mem_map] at ho
      obtain ⟨r, _, rfl⟩ := ho; rfl
  | opt p ih =>
      intro a s o ho
      simp only [Pat.run, List.mem_append, List.mem_singleton] at ho
      rcases ho with ho | ho
      · exact ih hg a s o ho
      · subst ho; rfl
  | alt p q ihp ihq =>
      intro a s o ho
      simp only [hasGrp, Bool.or_eq_false_iff] at hg
      simp only [Pat.run, List.mem_append] at ho
      rcases ho with ho | ho
      · exact ihp hg.1 a s o ho
      · exact ihq hg.2 a s o ho
  | seq p q ihp ihq =>
      intro a s o ho
      simp only [hasGrp, Bool.or_eq_false_iff] at hg
      simp only [Pat.run, List.mem_flatMap, List.mem_map] at ho
      obtain ⟨o1, ho1, o2, ho2, rfl⟩ := ho
      have h1 := ihp hg.1 a s o1 ho1
      have h2 := ihq hg.2 false o1.2 o2 ho2
      simp only [h1, h2]; rfl
  | grp p ih =>
      simp [hasGrp] at hg
  | bol =>
      intro a s o ho
      unfold Pat.run at ho
      split at ho
      · simp only [List.mem_singleton] at ho; subst ho; rfl
      · simp at ho
  | eos =>
      intro a s o ho
      unfold Pat.run at ho
      split at ho
      · simp only [List.mem_singleton] at ho; subst ho; rfl
      · simp at ho

theorem runCap_of_noGrp {P : List Char → Prop} {p : Pat} (hg : hasGrp p = false) :
    RunCapPred P p := by
  intro a s o ho c hc
  rw [run_noGrp_cap p hg a s o ho] at hc
  cases hc

theorem runCap_alt {P : List Char → Prop} {p q : Pat}
    (hp : RunCapPred P p) (hq : RunCapPred P q) : RunCapPred P (.alt p q) := by
  intro a s o ho c hc
  simp only [Pat.run, List.mem_append] at ho
  rcases ho with ho | ho
  · exact hp a s o ho c hc
  · exact hq a s o ho c hc

theorem runCap_seq {P : List Char → Prop} {p q : Pat}
    (hp : RunCapPred P p) (hq : RunCapPred P q) : RunCapPred P (.seq p q) := by
  intro a s o ho c hc
  simp only [Pat.run, List.mem_flatMap, List.mem_map] at ho
  obtain ⟨o1, ho1, o2, ho2, rfl⟩ := ho
  simp only at hc
  cases h1 : o1.1 with
  | some c1 =>
      rw [h1] at hc
      simp only [combineCap] at hc
      cases hc
      exact hp a s o1 ho1 _ h1
  | none =>
      rw [h1] at hc
      simp only [combineCap] at hc
      exact hq false o1.2 o2 ho2 c hc

theorem dropsDesc_mem (f : Char → Bool) :
    ∀ (s r : List Char), r ∈ dropsDesc f s → ∃ pre, pre.all f = true ∧ s = pre ++ r := by
  intro s
  induction s with
  | nil =>
      intro r hr
      simp only [dropsDesc, List.mem_singleton] at hr
      subst hr
      exact ⟨[], rfl, rfl⟩
  | cons c cs ih =>
      intro r hr
      unfold dropsDesc at hr
      by_cases hf : f c
      · rw [if_pos hf] at hr
        rcases List.mem_append.1 hr with h1 | h2
        · obtain ⟨pre, hall, heq⟩ := ih r h1
          refine ⟨c :: pre, ?_, ?_⟩
          · simp [List.all_cons, hf, hall]
          · simp [heq]
        · simp only [List.mem_singleton] at h2
          subst h2
          exact ⟨[], rfl, rfl⟩
      · rw [if_neg hf] at hr
        simp only [List.mem_singleton] at hr
        subst hr
        exact ⟨[], rfl, rfl⟩

theorem dropsPlus_mem (f : Char → Bool) (s r : List Char) (hr : r ∈ dropsPlus f s) :
    ∃ pre, pre ≠ [] ∧ pre.all f = true ∧ s = pre ++ r := by
  cases s with
  | nil => simp [dropsPlus] at hr
  | cons c cs =>
      simp only [dropsPlus] at hr
      by_cases hf : f c
      · rw [if_pos hf] at hr
        obtain ⟨pre, hall, heq⟩ := dropsDesc_mem f cs r hr
        refine ⟨c :: pre, by simp, ?_, by simp [heq]⟩
        simp [List.all_cons, hf, hall]
      · rw [if_neg hf] at hr
        simp at hr

theorem take_len_append (pre r : List Char) :
    (pre ++ r).take ((pre ++ r).length - r.length) = pre := by
  rw [List.length_append, Nat.add_sub_cancel]
  exact List.take_left pre r

theorem runCap_grp_plus (f : Char → Bool) :
    RunCapPred (fun c => c ≠ [] ∧ c.all f = true) (.grp (.plus f)) := by
  intro a s o ho c hc
  simp only [Pat.run, List.mem_map] at ho
  obtain ⟨o1, ⟨r, hr, hro⟩, rfl⟩ := ho
  subst hro
  simp only at hc
  obtain ⟨pre, hne, hall, heq⟩ := dropsPlus_mem f s r hr
  subst heq
  rw [take_len_append] at hc
  cases hc
  exact ⟨hne, hall⟩

/-- A capture returned by the position scan comes from a run of the pattern. -/
theorem searchGo_cap {P : List Char → Prop} {p : Pat} (hp : RunCapPred P p) :
    ∀ (s : List Char) (i j : Nat) (c : List Char),
      searchGo p i s = some (j, some c) → P c := by
  intro s
  induction s with
  | nil =>
      intro i j c h
      simp only [searchGo] at h
      cases hr : Pat.run p (i == 0) [] with
      | nil => rw [hr] at h; simp at h
      | cons o rest =>
          rw [hr] at h
          simp only at h
          injection h with h1
          have h2 : o.1 = some c := congrArg Prod.snd h1
          exact hp (i == 0) [] o (hr ▸ List.mem_cons_self o rest) c h2
  | cons ch rest ih =>
      intro i j c h
      simp only [searchGo] at h
      cases hr : Pat.run p (i == 0) (ch :: rest) with
      | nil =>
          rw [hr] at h
          simp only at h
          exact ih (i + 1) j c h
      | cons o rs =>
          rw [hr] at h
          simp only at h
          injection h with h1
          have h2 : o.1 = some c := congrArg Prod.snd h1
          exact hp (i == 0) (ch :: rest) o (hr ▸ List.mem_cons_self o rs) c h2

/-- Transfer of a capture property through `searchCap`. -/
theorem searchCap_sat {P : List Char → Prop} {p : Pat} (hp : RunCapPred P p)
    (text : String) (v : String) (h : searchCap p text = some v) : P v.data := by
  unfold searchCap at h
  cases hs : Pat.search p text.data with
  | none => rw [hs] at h; simp at h
  | some io =>
      obtain ⟨i, cap⟩ := io
      cases cap with
      | none => rw [hs] at h; simp at h
      | some c =>
          rw [hs] at h
          simp only at h
          injection h with h1
          subst h1
          exact searchGo_cap hp text.data 0 i c hs

theorem runCap_userPat1 : RunCapPred (fun c => c ≠ [] ∧ c.all credChar = true) userPat1 :=
  runCap_seq (runCap_of_noGrp rfl)
    (runCap_seq (runCap_of_noGrp rfl)
      (runCap_seq (runCap_of_noGrp rfl)
        (runCap_seq (runCap_of_noGrp rfl)
          (runCap_seq (runCap_grp_plus credChar) (runCap_of_noGrp rfl)))))

theorem runCap_userPat2 : RunCapPred (fun c => c ≠ [] ∧ c.all credChar = true) userPat2 :=
  runCap_seq (runCap_of_noGrp rfl)
    (runCap_seq (runCap_of_noGrp rfl)
      (runCap_seq (runCap_grp_plus credChar) (runCap_of_noGrp rfl)))

theorem runCap_pwPat1 : RunCapPred (fun c => c ≠ [] ∧ c.all credChar = true) pwPat1 :=
  runCap_seq (runCap_of_noGrp rfl)
    (runCap_seq (runCap_of_noGrp rfl)
      (runCap_seq (runCap_of_noGrp rfl)
        (runCap_seq (runCap_of_noGrp rfl)
          (runCap_seq (runCap_grp_plus credChar) (runCap_of_noGrp rfl)))))

theorem runCap_pwPat2 : RunCapPred (fun c => c ≠ [] ∧ c.all credChar = true) pwPat2 :=
  runCap_seq (runCap_of_noGrp rfl)
    (runCap_seq (runCap_of_noGrp rfl)
      (runCap_seq (runCap_grp_plus credChar) (runCap_of_noGrp rfl)))

/-- Values captured by the credential patterns are non-empty and avoid
whitespace and the separators `,`, `;`, `，`, `。`. -/
theorem credGood_chars (v : String) (hne : v.data ≠ []) (hall : v.data.all credChar = true) :
    v ≠ "" ∧ ∀ ch ∈ v.data, pySpace ch = false ∧ ch ≠ ',' ∧ ch ≠ ';' ∧ ch ≠ '，' ∧ ch ≠ '。' := by
  constructor
  · intro hv
    subst hv
    exact hne rfl
  · intro ch hch
    have hc := List.all_eq_true.1 hall ch hch
    simp only [credChar, Bool.not_eq_true', Bool.or_eq_false_iff,
      decide_eq_false_iff_not] at hc
    obtain ⟨⟨⟨⟨h1, h2⟩, h3⟩, h4⟩, h5⟩ := hc
    exact ⟨h1, h2, h3, h4, h5⟩

/-- Claim C10: for every input text, the inline-credential extraction returns a
mapping whose keys can only be `user` and `password` (the `Creds` record), and
whose values are non-empty strings containing no whitespace and none of the
characters `,`, `;`, `，`, `。`; a password written with an internal space is
captured only up to the space, and for each field the first matching pattern
wins (even over an earlier-in-text match of a later pattern). -/
theorem c10_inline_credentials :
    (∀ (text v : String), (extract_inline_credentials text).user = some v →
      v ≠ "" ∧ ∀ ch ∈ v.data, pySpace ch = false ∧ ch ≠ ',' ∧ ch ≠ ';' ∧ ch ≠ '，' ∧ ch ≠ '。') ∧
    (∀ (text v : String), (extract_inline_credentials text).password = some v →
      v ≠ "" ∧ ∀ ch ∈ v.data, pySpace ch = false ∧ ch ≠ ',' ∧ ch ≠ ';' ∧ ch ≠ '，' ∧ ch ≠ '。') ∧
    extract_inline_credentials "密码：abc def" = ⟨none, some "abc"⟩ ∧
    extract_inline_credentials "pwd x password=y" = ⟨none, some "y"⟩ := by
  refine ⟨?_, ?_, rfl, rfl⟩
  · intro text v h
    simp only [extract_inline_credentials] at h
    split at h
    · simp at h
    · simp only at h
      cases hs1 : searchCap userPat1 text with
      | some c =>
          rw [hs1] at h
          simp only at h
          injection h with h1
          subst h1
          have := searchCap_sat runCap_userPat1 text _ hs1
          exact credGood_chars _ this.1 this.2
      | none =>
          rw [hs1] at h
          simp only at h
          have := searchCap_sat runCap_userPat2 text v h
          exact credGood_chars v this.1 this.2
  · intro text v h
    simp only [extract_inline_credentials] at h
    split at h
    · simp at h
    · simp only at h
      cases hs1 : searchCap pwPat1 text with
      | some c =>
          rw [hs1] at h
          simp only at h
          injection h with h1
          subst h1
          have := searchCap_sat runCap_pwPat1 text _ hs1
          exact credGood_chars _ this.1 this.2
      | none =>
          rw [hs1] at h
          simp only at h
          have := searchCap_sat runCap_pwPat2 text v h
          exact credGood_chars v this.1 this.2

/-- Witness for C10: on the C1 scenario text the extraction returns concrete
values and the proved properties hold of them. -/
theorem c10_inline_credentials_witness :
    (extract_inline_credentials c1Text).user = some "alice" ∧
    ("alice" : String) ≠ "" ∧
    (extract_inline_credentials c1Text).password = some "secret" ∧
    ∀ ch ∈ ("secret" : String).data, pySpace ch = false ∧
      ch ≠ ',' ∧ ch ≠ ';' ∧ ch ≠ '，' ∧ ch ≠ '。' := by
  have hu : (extract_inline_credentials c1Text).user = some "alice" := by decide
  have hp : (extract_inline_credentials c1Text).password = some "secret" := by decide
  exact ⟨hu, (c10_inline_credentials.1 c1Text "alice" hu).1, hp,
    (c10_inline_credentials.2.1 c1Text "secret" hp).2⟩


/-- Counterexample to claim C1: on the spec's end-to-end text with an empty
external draft, `parse_request` yields source table `vwtable1`, not the claimed
`public.vwtable1` (the `public.` qualification is skipped because the source
type is detected from the text only after the qualification step runs on the
still-untyped draft). -/
theorem c1_counterexample :
    (parse_request testSettings c1Req (LLMResult.draft llmEmptyDraft)).map
        (fun c => c.source.table) = Except.ok (some "vwtable1") ∧
    (some "vwtable1" : Option String) ≠ some "public.vwtable1" :=
  ⟨rfl, by decide⟩

/-- Claim C1 as amended: the end-to-end scenario text, with an empty external
draft, yields source type postgres, JDBC URL
`jdbc:postgresql://db.example.com:5432/sales`, source table `vwtable1` (bare:
with an empty draft the dialect schema prefix is not applied because the
source type is not yet known at qualification time), source options containing
user=alice and password=secret, sink database `test`, sink table `out1`, sink
type delta and sink layer bronze. -/
theorem c1_end_to_end :
    (parse_request testSettings c1Req (LLMResult.draft llmEmptyDraft)).map
        (fun c => (c.source.type, c.source.jdbc_url, c.source.table,
          dictGet c.source.options "user", dictGet c.source.options "password",
          c.sink.database, c.sink.table, c.sink.type, c.sink.layer)) =
      Except.ok (SourceType.postgres, some "jdbc:postgresql://db.example.com:5432/sales",
        some "vwtable1", some "alice", some "secret",
        some "test", some "out1", SinkType.delta, some "bronze") :=
  rfl

/-- Counterexample to claim C2: for the text `c2Text` the heuristic builder
succeeds, yet `parse_request` with a non-JSON LLM answer raises the terminal
error immediately — the heuristic path is never consulted. -/
theorem c2_counterexample :
    (build_from_text c2Text).isSome = true ∧
    parse_request testSettings ⟨some c2Text, none, false⟩
        (LLMResult.rawWrapped "plain text, not JSON") = Except.error msgLLMInvalid :=
  ⟨rfl, rfl⟩

/-- Claim C2 as amended: when the external LLM step returns non-JSON text (the
`_raw` wrapper), `parse_request` raises the terminal error immediately, for
every request text; the heuristic path runs only when the typed construction
of a usable draft fails. -/
theorem c2_raw_is_terminal (st : Settings) (text s : String) (h : text ≠ "") :
    parse_request st ⟨some text, none, false⟩ (LLMResult.rawWrapped s) =
      Except.error msgLLMInvalid := by
  simp [parse_request, isFilled, h]

/-- Witness for C2: the amended behaviour at a concrete text. -/
theorem c2_raw_is_terminal_witness :
    parse_request testSettings ⟨some c2Text, none, false⟩ (LLMResult.rawWrapped "oops") =
      Except.error msgLLMInvalid :=
  c2_raw_is_terminal testSettings c2Text "oops" (by decide)

/-- `_fill_jdbc_and_sink_defaults` never writes the source table. -/
theorem fill_source_table_eq (d : CoreDraft) (text : String) :
    (fill_jdbc_and_sink_defaults d text).source.table = d.source.table := by
  unfold fill_jdbc_and_sink_defaults
  dsimp only
  repeat' split
  all_goals rfl

/-- `_prefill_from_text` never writes the JDBC URL. -/
theorem prefill_jdbc_eq (d : CoreDraft) (text : String) :
    (prefill_from_text d text).source.jdbc_url = d.source.jdbc_url := by
  unfold prefill_from_text
  dsimp only
  repeat' split
  all_goals rfl

/-- `_fill_jdbc_and_sink_defaults` never writes the sink type. -/
theorem fill_sink_type_eq (d : CoreDraft) (text : String) :
    (fill_jdbc_and_sink_defaults d text).sink.type = d.sink.type := by
  unfold fill_jdbc_and_sink_defaults
  dsimp only
  repeat' split
  all_goals rfl

/-- A dotted draft source table survives pre-fill when the text yields no
source-table candidate. -/
theorem prefill_table_preserved (d : CoreDraft) (text : String) (t : String)
    (h1 : d.source.table = some t) (hsrc : parse_source_table text = none)
    (hdot : t.data.contains '.' = true) :
    (prefill_from_text d text).source.table = some t := by
  unfold prefill_from_text
  dsimp only
  rw [hsrc]
  dsimp only
  rw [h1]
  simp only [isFilled, Option.getD_some, hdot, Bool.not_true, Bool.and_false,
    if_false]
  repeat' split
  all_goals first | rfl | simp_all

/-- A non-empty draft sink table survives pre-fill when the text yields no
sink-table candidate. -/
theorem prefill_sink_table_preserved (d : CoreDraft) (text : String) (st : String)
    (h1 : d.sink.table = some st) (h2 : st ≠ "") (hsink : parse_sink_table text = none) :
    (prefill_from_text d text).sink.table = some st := by
  unfold prefill_from_text
  dsimp only
  rw [hsink]
  dsimp only
  repeat' split
  all_goals first | rfl | simp_all [isFilled]

/-- A present draft sink type survives pre-fill (`setdefault` only fills
absent keys). -/
theorem prefill_sink_type_preserved (d : CoreDraft) (text : String) (ty : String)
    (h1 : d.sink.type = some ty) :
    (prefill_from_text d text).sink.type = some ty := by
  unfold prefill_from_text
  dsimp only
  rw [h1]
  repeat' split
  all_goals rfl

/-- A dot-free sink table survives the protocol-defaulting split. -/
theorem fill_sink_table_preserved (d : CoreDraft) (text : String) (st : String)
    (h1 : d.sink.table = some st) (hdot : st.data.contains '.' = false) :
    (fill_jdbc_and_sink_defaults d text).sink.table = some st := by
  unfold fill_jdbc_and_sink_defaults
  dsimp only
  rw [h1]
  simp only [isFilled, Option.getD_some, hdot, Bool.and_false, if_false]
  repeat' split
  all_goals first | rfl | simp_all

/-- The JDBC URL is untouched when the text yields no host. -/
theorem fill_jdbc_preserved (d : CoreDraft) (text : String)
    (hhost : (parse_host_db text).1 = none) :
    (fill_jdbc_and_sink_defaults d text).source.jdbc_url = d.source.jdbc_url := by
  unfold fill_jdbc_and_sink_defaults
  dsimp only
  rw [hhost]
  repeat' split
  all_goals first | rfl | simp_all

/-- Counterexample to claim C3: a draft holding a non-empty source table and a
non-empty JDBC URL does not keep those values: the pre-fill stage overwrites
the source table from the text (and then dialect-qualifies it), and the
protocol-defaulting stage overwrites the JDBC URL from the text host. -/
theorem c3_counterexample :
    c3Draft.source.table = some "t1" ∧
    c3Draft.source.jdbc_url = some "jdbc:old" ∧
    (fill_jdbc_and_sink_defaults (prefill_from_text c3Draft c3Text) c3Text).source.table =
      some "public.t2" ∧
    (fill_jdbc_and_sink_defaults (prefill_from_text c3Draft c3Text) c3Text).source.jdbc_url =
      some "jdbc:postgresql://h1:5432/postgres" ∧
    (some "public.t2" : Option String) ≠ some "t1" ∧
    (some "jdbc:postgresql://h1:5432/postgres" : Option String) ≠ some "jdbc:old" :=
  ⟨rfl, rfl, rfl, rfl, by decide, by decide⟩

/-- Claim C3 as amended: during pre-fill and protocol defaulting, a draft
field keeps its non-empty value unless the text yields a candidate for it or a
structural normalization applies to it.  Concretely: a dotted source table is
kept when the text yields no source table; the JDBC URL is kept when the text
yields no host; a non-empty dot-free sink table is kept when the text yields
no sink table; a present sink type is always kept.  (The counterexample shows
that a text candidate does overwrite the source table and the JDBC URL.) -/
theorem c3_prefill_frame (d : CoreDraft) (text : String) :
    (∀ t, d.source.table = some t → t.data.contains '.' = true →
      parse_source_table text = none →
      (fill_jdbc_and_sink_defaults (prefill_from_text d text) text).source.table = some t) ∧
    ((parse_host_db text).1 = none →
      (fill_jdbc_and_sink_defaults (prefill_from_text d text) text).source.jdbc_url =
        d.source.jdbc_url) ∧
    (∀ st, d.sink.table = some st → st ≠ "" → st.data.contains '.' = false →
      parse_sink_table text = none →
      (fill_jdbc_and_sink_defaults (prefill_from_text d text) text).sink.table = some st) ∧
    (∀ ty, d.sink.type = some ty →
      (fill_jdbc_and_sink_defaults (prefill_from_text d text) text).sink.type = some ty) := by
  refine ⟨?_, ?_, ?_, ?_⟩
  · intro t h1 hdot hsrc
    rw [fill_source_table_eq (prefill_from_text d text) text,
      prefill_table_preserved d text t h1 hsrc hdot]
  · intro hhost
    rw [fill_jdbc_preserved (prefill_from_text d text) text hhost, prefill_jdbc_eq d text]
  · intro st h1 h2 hdot hsink
    exact fill_sink_table_preserved (prefill_from_text d text) text st
      (prefill_sink_table_preserved d text st h1 h2 hsink) hdot
  · intro ty h1
    rw [fill_sink_type_eq (prefill_from_text d text) text,
      prefill_sink_type_preserved d text ty h1]

/-- Witness for the amended claim C3 at a concrete draft and the empty text. -/
theorem c3_prefill_frame_witness :
    (fill_jdbc_and_sink_defaults (prefill_from_text c3WitnessDraft "") "").source.table =
      some "s.t1" ∧
    (fill_jdbc_and_sink_defaults (prefill_from_text c3WitnessDraft "") "").source.jdbc_url =
      some "jdbc:x" ∧
    (fill_jdbc_and_sink_defaults (prefill_from_text c3WitnessDraft "") "").sink.table =
      some "t0" ∧
    (fill_jdbc_and_sink_defaults (prefill_from_text c3WitnessDraft "") "").sink.type =
      some "delta" := by
  have h := c3_prefill_frame c3WitnessDraft ""
  exact ⟨h.1 "s.t1" rfl (by decide) (by decide),
    (h.2.1 (by decide)).trans rfl,
    h.2.2.1 "t0" rfl (by decide) (by decide) (by decide),
    h.2.2.2 "delta" rfl⟩

/-- Claim C4: the required-field validation raises exactly when its missing
set is non-empty; (a) a sink table present without a dot and without a sink
schema puts the sink-schema label in the missing set; (b) on the C1 text with
the password clause removed (and an empty draft run through the pipeline), the
missing set is exactly the password label. -/
theorem c4_validator (d : CoreDraft) (text : String) :
    ((∃ e, validate_required_fields d text = Except.error e) ↔ missing_fields d text ≠ []) ∧
    (isFilled d.sink.table = true → (d.sink.table.getD "").data.contains '.' = false →
      isFilled d.sink.database = false → lblSinkSchema ∈ missing_fields d text) ∧
    missing_fields c4Draft c4Text = [lblPassword] := by
  refine ⟨⟨?_, ?_⟩, ?_, ?_⟩
  · rintro ⟨e, he⟩ hnil
    unfold validate_required_fields at he
    rw [hnil] at he
    simp at he
  · intro hne
    refine ⟨missingFieldsMsg (missing_fields d text), ?_⟩
    unfold validate_required_fields
    rw [if_neg (by simpa using hne)]
  · intro h1 h2 h3
    simp [missing_fields, h1, h2, h3, List.mem_append]
    right; right; right; right; right
    simpa using h2
  · rfl

/-- Witness for C4 part (a): a draft with a bare sink table and no sink schema
gets the sink-schema label reported. -/
theorem c4_validator_witness :
    lblSinkSchema ∈ missing_fields c4WitnessDraft "" :=
  (c4_validator c4WitnessDraft "").2.1 (by decide) (by decide) (by decide)

/-- Counterexample to claim C5: a draft whose source table is the bare name
`orders` (postgres type, no schema in the text) does not resolve to
`public.orders` when the text yields its own source-table candidate — the text
candidate replaces the draft value first, and the dialect prefix is applied to
the replacement. -/
theorem c5_counterexample :
    c5Draft.source.table = some "orders" ∧
    c5Draft.source.type = some "postgres" ∧
    searchCap srcSchemaPat (get_source_segment c5Text) = none ∧
    (prefill_from_text c5Draft c5Text).source.table = some "public.b" ∧
    (some "public.b" : Option String) ≠ some "public.orders" :=
  ⟨rfl, rfl, rfl, rfl, by decide⟩

/-- Claim C5 as amended: when the text yields no source-table candidate (and
no explicit source schema), a draft whose source table is a bare non-empty
name resolves by dialect: postgres prepends `public.`, sqlserver prepends
`dbo.`, and mysql leaves the bare name untouched. -/
theorem c5_dialect_default (d : CoreDraft) (text : String) (t : String)
    (h1 : d.source.table = some t) (h2 : t ≠ "") (h3 : t.data.contains '.' = false)
    (h4 : parse_source_table text = none)
    (h5 : searchCap srcSchemaPat (get_source_segment text) = none) :
    (d.source.type = some "postgres" →
        (prefill_from_text d text).source.table = some ("public." ++ t)) ∧
    (d.source.type = some "sqlserver" →
        (prefill_from_text d text).source.table = some ("dbo." ++ t)) ∧
    (d.source.type = some "mysql" →
        (prefill_from_text d text).source.table = some t) := by
  refine ⟨?_, ?_, ?_⟩ <;> intro hty <;>
    (unfold prefill_from_text
     dsimp only
     rw [h4]
     dsimp only
     rw [h1]
     simp only [isFilled, Option.getD_some, h3, Bool.not_false, Bool.and_true,
       decide_eq_true h2, if_true]
     rw [h5]
     dsimp only
     rw [hty]
     repeat' split
     all_goals first | rfl | simp_all)

/-- Witness for the amended claim C5: the three dialects at a concrete draft
and the empty text. -/
theorem c5_dialect_default_witness :
    (prefill_from_text c5Draft "").source.table = some "public.orders" ∧
    (prefill_from_text
        { c5Draft with source := { c5Draft.source with type := some "sqlserver" } }
        "").source.table = some "dbo.orders" ∧
    (prefill_from_text
        { c5Draft with source := { c5Draft.source with type := some "mysql" } }
        "").source.table = some "orders" :=
  ⟨(c5_dialect_default c5Draft "" "orders" rfl (by decide) (by decide) (by decide) rfl).1 rfl,
   (c5_dialect_default _ "" "orders" rfl (by decide) (by decide) (by decide) rfl).2.1 rfl,
   (c5_dialect_default _ "" "orders" rfl (by decide) (by decide) (by decide) rfl).2.2 rfl⟩


/-- Claim C6: the heuristic builder returns no result exactly when no truthy
host or no truthy source table is resolvable from the text (and it never
raises); when it returns a configuration and a sink table was recovered, the
sink path is built from the schema/table split at the first dot, with schema
`default` when the recovered sink table has no dot. -/

theorem c6_build_from_text (text : String) :
    (build_from_text text = none ↔
      (isFilled (parse_host_db text).1 = false ∨ isFilled (parse_source_table text) = false)) ∧
    (∀ cfg, build_from_text text = some cfg → ∀ stbl, parse_sink_table text = some stbl →
      stbl ≠ "" →
      cfg.sink.path = some (pyOr (parse_uc_path text) DEFAULT_UC_BASE_PATH ++ "/" ++
        pyOr (parse_layer text) DEFAULT_LAYER ++ "/" ++
        (if stbl.data.contains '.' then String.mk (splitFirst '.' stbl.data).1 else "default") ++
        "/" ++
        (if stbl.data.contains '.' then String.mk (splitFirst '.' stbl.data).2 else stbl))) := by
  constructor
  · by_cases hH : isFilled (parse_host_db text).1 <;>
      by_cases hT : isFilled (parse_source_table text) <;>
        simp [build_from_text, hH, hT]
  · intro cfg hcfg stbl hs hne
    unfold build_from_text at hcfg
    dsimp only at hcfg
    rw [hs] at hcfg
    by_cases hc : (!(isFilled (parse_host_db text).1) || !(isFilled (parse_source_table text))) = true
    · rw [if_pos hc] at hcfg
      simp at hcfg
    · rw [if_neg hc] at hcfg
      injection hcfg with hcfg
      subst hcfg
      simp only [isFilled, decide_eq_true hne, if_true]
      by_cases hdot : '.' ∈ stbl.data <;> simp [hdot]


/-- Witness for C6 at a concrete text whose heuristic rebuild succeeds. -/

theorem c6_build_from_text_witness :
    (match build_from_text c2Text with
     | some cfg => cfg.sink.path
     | none => none) = some (DEFAULT_UC_BASE_PATH ++ "/bronze/default/h1") := by
  have h := (c6_build_from_text c2Text).2
  cases hb : build_from_text c2Text with
  | none =>
      have : build_from_text c2Text ≠ none := by decide
      exact absurd hb this
  | some cfg =>
      have hp := h cfg hb "default.h1" (by decide) (by decide)
      simp only [hp]
      decide

/-- Counterexample to claim C7: on the English segmentation text the
source-table extraction returns no result (its keyword patterns are
Chinese-only), not `orders` as claimed; the sink-table extraction is correct. -/
theorem c7_counterexample :
    parse_sink_table c7Text = some "test.pgsqltest1" ∧
    parse_source_table c7Text = none ∧
    parse_source_table c7Text ≠ some "orders" :=
  ⟨rfl, rfl, by decide⟩

/-- Claim C7 as amended: the sink-table extraction returns `test.pgsqltest1`
and the source-table extraction returns nothing (in particular the two are not
reversed): the source-table rules only recognise the Chinese keyword forms, so
the English phrase `source table orders` yields no source table. -/
theorem c7_segmentation :
    parse_sink_table c7Text = some "test.pgsqltest1" ∧
    parse_source_table c7Text = none ∧
    parse_source_table c7Text ≠ parse_sink_table c7Text :=
  ⟨rfl, rfl, by decide⟩

/-- Counterexample to claim C8: on a text naming a mysql source with no
embedded port, the extracted port is 5432 — `_parse_host_db` has no
per-source-type default table; the spec's table (`spec_default_port`) says
3306 for mysql. -/
theorem c8_counterexample :
    parse_host_db c8Text = (some "db1", 5432, "postgres") ∧
    spec_default_port SourceType.mysql = some 3306 ∧
    (5432 : Nat) ≠ 3306 :=
  ⟨rfl, rfl, by decide⟩

/-- Claim C8 as amended: when the extracted host token contains a colon, the
part before the first colon becomes the host and the part after it becomes the
port exactly when it is all digits; without an embedded port (or with a
non-numeric one, or with no host at all) the port is always the module
constant `DEFAULT_POSTGRES_PORT` = 5432, independent of the source type. -/
theorem c8_host_port (text : String) :
    (∀ h, host_token text = some h →
      (h.data.contains ':' = true →
        parse_host_db text =
          (some (String.mk (splitFirst ':' h.data).1),
           (if pyIsDigit (splitFirst ':' h.data).2 then digitsToNat (splitFirst ':' h.data).2
            else DEFAULT_POSTGRES_PORT),
           pyOr (db_token text) DEFAULT_POSTGRES_DB)) ∧
      (h.data.contains ':' = false →
        parse_host_db text =
          (some h, DEFAULT_POSTGRES_PORT, pyOr (db_token text) DEFAULT_POSTGRES_DB))) ∧
    (host_token text = none →
      parse_host_db text = (none, DEFAULT_POSTGRES_PORT, pyOr (db_token text) DEFAULT_POSTGRES_DB)) := by
  refine ⟨?_, ?_⟩
  · intro h hh
    constructor
    · intro hcolon
      unfold parse_host_db
      rw [hh]
      simp only [hcolon, if_true]
    · intro hcolon
      have hc2 : ':' ∉ h.data := by simpa using hcolon
      unfold parse_host_db
      rw [hh]
      simp [hc2]
  · intro hh
    unfold parse_host_db
    rw [hh]

/-- Witness for the amended claim C8 at concrete texts with and without an
embedded port. -/
theorem c8_host_port_witness :
    parse_host_db c8ColonText = (some "db.example.com", 5433, "d1") ∧
    parse_host_db c8Text = (some "db1", 5432, "postgres") := by
  constructor
  · have h := ((c8_host_port c8ColonText).1 "db.example.com:5433" rfl).1 (by decide)
    rw [h]
    decide
  · have h := ((c8_host_port c8Text).1 "db1" rfl).2 (by decide)
    rw [h]
    decide

/-- Claim C9: the augmentation stage is idempotent on an already-complete
configuration — with JDBC URL, sink table, path, catalog and layer populated
(and the sink type, a typed enum, always truthy) it reports no update, the
effective configuration is unchanged, and applying the stage twice equals
applying it once. -/
theorem c9_augment_idempotent (st : Settings) (cfg : IngestionJobConfig) (text : String)
    (h1 : isFilled cfg.source.jdbc_url = true) (h2 : isFilled cfg.sink.table = true)
    (h3 : isFilled cfg.sink.path = true) (h4 : isFilled cfg.sink.catalog = true)
    (_h5 : isFilled cfg.sink.layer = true) :
    augment_from_text st cfg text = Except.ok none ∧
    apply_augment st cfg text = Except.ok cfg ∧
    (apply_augment st cfg text).bind (fun c => apply_augment st c text) =
      apply_augment st cfg text := by
  have ha : augment_from_text st cfg text = Except.ok none := by
    unfold augment_from_text
    simp [h1, h2, h3, h4]
  have hb : apply_augment st cfg text = Except.ok cfg := by
    unfold apply_augment
    rw [ha]
  refine ⟨ha, hb, ?_⟩
  rw [hb]
  simp only [Except.bind]
  exact hb

/-- Witness for C9 at a concrete complete configuration. -/
theorem c9_augment_idempotent_witness :
    apply_augment testSettings c9Config "从pgsql抽取" = Except.ok c9Config :=
  (c9_augment_idempotent testSettings c9Config "从pgsql抽取" rfl rfl rfl rfl rfl).2.1
